import Mathlib

/-!
Verification development for the Cade DCPU-16 emulator core (src/cade.c).

The machine state, operand resolver, opcode dispatch and cycle engine are
shallowly embedded below.  Machine words are modelled as `Nat`; wherever the
C code performs 16-bit (`uint16_t`) or 32-bit (`uint32_t`) wraparound
arithmetic, the embedding writes the wraparound explicitly as `% 0x10000`
resp. `% 0x100000000`.  The C `& 0x3f` operand-field masks are written
`% 64` (the two are equal on `Nat`).  C code that promotes a `uint16_t`
through `int` is modelled with the unsigned reading of the expression, which
is the value the expressions take for all 16-bit machine words that do not
hit implementation-defined sign behaviour.

Resolved operand pointers (`uint16_t *val_a, *val_b` in the C) are modelled
by the sum type `Loc` naming the cell they point at, together with `load`
and `store`.  The C thunk `cpu->cycle` (the function to run on the next
clock cycle) is modelled by the enumeration `CycleTag`.
-/

namespace Cade

/-- Which machine cell a resolved operand pointer refers to: a register
`registers[i]`, a memory word `memory[a]`, one of the special registers
SP / PC / O, an entry of the static small-literal table, or the scratch
`dummy` cell that absorbs writes to literal destinations. -/
inductive Loc where
  | reg (i : Nat)
  | mem (a : Nat)
  | sp
  | pc
  | o
  | lit (i : Nat)
  | dummy
deriving DecidableEq

/-- The thunk stored in `cpu->cycle`: which cycle function runs next.
`skipc` is `cycle_skip`, `ifpost` is `cycle_if`, `divmod2` is
`cycle_divmod2`; the rest are named after their C functions. -/
inductive CycleTag where
  | fetch
  | add
  | sub
  | mul
  | div1
  | mod1
  | divmod2
  | shl
  | shr
  | ifpost
  | skipc
  | jsr
deriving DecidableEq

/-- Embeds `struct DCPU_State` from src/cade.c.  `lits` is the function-static
`literals[]` table of `eval_value` (initially the identity on 0..31); it is
carried in the state so that pointers into it can be loaded and stored like
every other cell. -/
structure DCPU_State where
  registers : Nat → Nat
  sp : Nat
  pc : Nat
  o : Nat
  memory : Nat → Nat
  cycle : CycleTag
  inst : Nat
  val_a : Option Loc
  val_b : Option Loc
  dummy : Nat
  timer : Nat
  skip : Bool
  lits : Nat → Nat

/-- Read the 16-bit cell a resolved operand points at. -/
def load (s : DCPU_State) : Loc → Nat
  | Loc.reg i => s.registers i
  | Loc.mem a => s.memory a
  | Loc.sp => s.sp
  | Loc.pc => s.pc
  | Loc.o => s.o
  | Loc.lit i => s.lits i
  | Loc.dummy => s.dummy

/-- Write the 16-bit cell a resolved operand points at. -/
def store (s : DCPU_State) (l : Loc) (v : Nat) : DCPU_State :=
  match l with
  | Loc.reg i => { s with registers := fun j => if j = i then v else s.registers j }
  | Loc.mem a => { s with memory := fun j => if j = a then v else s.memory j }
  | Loc.sp => { s with sp := v }
  | Loc.pc => { s with pc := v }
  | Loc.o => { s with o := v }
  | Loc.lit i => { s with lits := fun j => if j = i then v else s.lits j }
  | Loc.dummy => { s with dummy := v }

/-- Embeds `eval_value` from src/cade.c: resolve a 6-bit operand code into a
location, with `dest = true` when the operand is resolved in the `a`
(destination) role.  Returns the updated state, the resolved location, and
how many cycles were spent (0 or 1).  Note the code's `[reg]` modes
(codes 8..15) compute the pointer `&memory[memory[registers[r]]]`, a double
indirection, and its next-word-literal mode (code 31) returns a pointer at
the program word itself.  The final arm is unreachable: every call site
masks the code to 6 bits. -/
def eval_value (s : DCPU_State) (value : Nat) (dest : Bool) : DCPU_State × Loc × Nat :=
  if value ≤ 7 then
    (s, Loc.reg value, 0)
  else if value ≤ 15 then
    (s, Loc.mem (s.memory (s.registers (value - 8))), 0)
  else if value ≤ 23 then
    let succ := s.memory s.pc
    ({ s with pc := (s.pc + 1) % 0x10000 }, Loc.mem (succ + s.registers (value - 16)), 1)
  else if value = 24 then
    ({ s with sp := (s.sp + 1) % 0x10000 }, Loc.mem s.sp, 0)
  else if value = 25 then
    (s, Loc.mem s.sp, 0)
  else if value = 26 then
    ({ s with sp := (s.sp + 0xffff) % 0x10000 }, Loc.mem ((s.sp + 0xffff) % 0x10000), 0)
  else if value = 27 then
    (s, Loc.sp, 0)
  else if value = 28 then
    (s, Loc.pc, 0)
  else if value = 29 then
    (s, Loc.o, 0)
  else if value = 30 then
    ({ s with pc := (s.pc + 1) % 0x10000 }, Loc.mem (s.memory s.pc), 1)
  else if value = 31 then
    ({ s with pc := (s.pc + 1) % 0x10000 }, Loc.mem s.pc, 1)
  else if value ≤ 63 then
    (s, if dest then Loc.dummy else Loc.lit (value - 32), 0)
  else
    (s, Loc.dummy, 0)

/-- Embeds `DCPU_ValueLength` from src/cade.c: extra instruction words consumed by
an operand code.  The C compares against `VAL_SUCC = 30`, so the
`[next_word + reg]` codes 16..23 fall in the first branch and report 0. -/
def DCPU_ValueLength (value : Nat) : Nat :=
  if value < 30 then 0
  else if value ≤ 31 then 1
  else 0

/-- Embeds `DCPU_InstructionLength` from src/cade.c: length in words of an
instruction.  For a non-basic instruction (low nibble 0) the C prints an
error to stderr and falls through to `return 1`. -/
def DCPU_InstructionLength (inst : Nat) : Nat :=
  if inst % 16 ≠ 0 then
    1 + DCPU_ValueLength ((inst >>> 4) % 64) + DCPU_ValueLength ((inst >>> 10) % 64)
  else
    1

/-- Embeds `get_cycle_refetch` from src/cade.c: clear the in-flight instruction and
operand slots, count the cycle, and make `cycle_fetch` the next thunk. -/
def get_cycle_refetch (s : DCPU_State) : DCPU_State :=
  { s with inst := 0, val_a := none, val_b := none, timer := s.timer + 1,
           cycle := CycleTag.fetch }

/-- The clear-state tail at the end of `cycle_fetch` ("Done with the
instruction, clear state").  The C returns the stored `cpu->cycle` thunk
here, so the `cycle` field is left unchanged (it holds `cycle_fetch`
whenever this code runs). -/
def fetch_done (s : DCPU_State) : DCPU_State :=
  { s with inst := 0, val_a := none, val_b := none, timer := s.timer + 1 }

/-- Embeds `cycle_add` from src/cade.c.  The sum is formed in 32 bits, the store
truncates to 16 bits and O records the carry.  The fallback arm models the
`val_a`/`val_b` slots being empty, where the C would dereference NULL; it is
unreachable through the engine. -/
def cycle_add (s : DCPU_State) : DCPU_State :=
  match s.val_a, s.val_b with
  | some a, some b =>
    let tmp := load s a + load s b
    let s1 := store s a (tmp % 0x10000)
    let s2 := { s1 with o := if 0xffff < tmp then 1 else 0, timer := s1.timer + 1 }
    get_cycle_refetch s2
  | _, _ => get_cycle_refetch s

/-- Embeds `cycle_sub` from src/cade.c.  `uint32_t tmp = *a - *b` wraps modulo
2^32; O becomes 0xffff exactly when the subtraction borrowed. -/
def cycle_sub (s : DCPU_State) : DCPU_State :=
  match s.val_a, s.val_b with
  | some a, some b =>
    let tmp := (load s a + 0x100000000 - load s b) % 0x100000000
    let s1 := store s a (tmp % 0x10000)
    let s2 := { s1 with o := if 0xffff < tmp then 0xffff else 0, timer := s1.timer + 1 }
    get_cycle_refetch s2
  | _, _ => get_cycle_refetch s

/-- Embeds `cycle_mul` from src/cade.c.  Note: unlike `cycle_add` and `cycle_sub`,
this thunk has no `timer++` of its own; only the one inside
`get_cycle_refetch` runs. -/
def cycle_mul (s : DCPU_State) : DCPU_State :=
  match s.val_a, s.val_b with
  | some a, some b =>
    let tmp := (load s a * load s b) % 0x100000000
    let s1 := store s a (tmp % 0x10000)
    get_cycle_refetch { s1 with o := (tmp >>> 16) % 0x10000 }
  | _, _ => get_cycle_refetch s

/-- Embeds `cycle_divmod2` from src/cade.c: the shared middle/last cycle of DIV and
MOD; burns one cycle and refetches. -/
def cycle_divmod2 (s : DCPU_State) : DCPU_State :=
  get_cycle_refetch { s with timer := s.timer + 1 }

/-- Embeds `cycle_div1` from src/cade.c: the divide.  On a zero divisor the C does
`*cpu->val_a = cpu->o = 0`; otherwise O is computed from the pre-store
dividend `(*a << 16) / *b` before the quotient is stored. -/
def cycle_div1 (s : DCPU_State) : DCPU_State :=
  match s.val_a, s.val_b with
  | some a, some b =>
    if load s b ≠ 0 then
      let tmp := (load s a <<< 16) / load s b
      let s1 := store s a (load s a / load s b)
      { s1 with o := tmp >>> 16, timer := s1.timer + 1, cycle := CycleTag.divmod2 }
    else
      let s1 := { s with o := 0 }
      let s2 := store s1 a 0
      { s2 with timer := s2.timer + 1, cycle := CycleTag.divmod2 }
  | _, _ => { s with timer := s.timer + 1, cycle := CycleTag.divmod2 }

/-- Embeds `cycle_mod1` from src/cade.c. -/
def cycle_mod1 (s : DCPU_State) : DCPU_State :=
  match s.val_a, s.val_b with
  | some a, some b =>
    let s1 := if load s b ≠ 0 then store s a (load s a % load s b) else store s a 0
    { s1 with timer := s1.timer + 1, cycle := CycleTag.divmod2 }
  | _, _ => { s with timer := s.timer + 1, cycle := CycleTag.divmod2 }

/-- Embeds `cycle_shl` from src/cade.c (no `timer++` of its own). -/
def cycle_shl (s : DCPU_State) : DCPU_State :=
  match s.val_a, s.val_b with
  | some a, some b =>
    let res := (load s a <<< load s b) % 0x100000000
    let s1 := store s a (res % 0x10000)
    get_cycle_refetch { s1 with o := res >>> 16 }
  | _, _ => get_cycle_refetch s

/-- Embeds `cycle_shr` from src/cade.c (no `timer++` of its own).  O is assigned
before the shifted value is stored, from the original `*a`. -/
def cycle_shr (s : DCPU_State) : DCPU_State :=
  match s.val_a, s.val_b with
  | some a, some b =>
    let res := load s a >>> load s b
    let s1 := { s with o := ((load s a <<< 16) >>> load s b) % 0x10000 }
    get_cycle_refetch (store s1 a (res % 0x10000))
  | _, _ => get_cycle_refetch s

/-- Embeds `cycle_if` from src/cade.c: the unconditional post-IFx cycle. -/
def cycle_if (s : DCPU_State) : DCPU_State :=
  get_cycle_refetch { s with timer := s.timer + 1 }

/-- Embeds `cycle_skip` from src/cade.c: advance PC past the instruction at PC by
its computed length, clear the skip flag, refetch. -/
def cycle_skip (s : DCPU_State) : DCPU_State :=
  let inst := s.memory s.pc
  get_cycle_refetch
    { s with pc := (s.pc + DCPU_InstructionLength inst) % 0x10000, skip := false }

/-- Embeds `cycle_jsr` from src/cade.c: push PC at the pre-decremented SP, then
jump to the resolved operand (read after the push, as in the C). -/
def cycle_jsr (s : DCPU_State) : DCPU_State :=
  let sp1 := (s.sp + 0xffff) % 0x10000
  let s1 := { s with sp := sp1,
                     memory := fun j => if j = sp1 then s.pc else s.memory j }
  let s2 := { s1 with pc := match s1.val_a with
                            | some a => load s1 a
                            | none => s1.pc }
  get_cycle_refetch { s2 with timer := s2.timer + 1 }

/-- The execute dispatch of `cycle_fetch` (its second `switch`), run in the
same cycle as the final operand resolution.  One-cycle operations complete
here through the `fetch_done` tail; multi-cycle operations install their
next thunk without counting a cycle.  An unknown extended opcode falls
through the inner `switch` to the `fetch_done` tail, silently.  The
fallback arms of the binary operations model the C dereferencing NULL
operand slots; they are unreachable through the engine. -/
def dispatch (s : DCPU_State) : DCPU_State :=
  if s.inst % 16 = 0 then
    if (s.inst >>> 4) % 64 = 1 then { s with cycle := CycleTag.jsr }
    else fetch_done s
  else if s.inst % 16 = 1 then
    match s.val_a, s.val_b with
    | some a, some b => fetch_done (store s a (load s b))
    | _, _ => fetch_done s
  else if s.inst % 16 = 2 then { s with cycle := CycleTag.add }
  else if s.inst % 16 = 3 then { s with cycle := CycleTag.sub }
  else if s.inst % 16 = 4 then { s with cycle := CycleTag.mul }
  else if s.inst % 16 = 5 then { s with cycle := CycleTag.div1 }
  else if s.inst % 16 = 6 then { s with cycle := CycleTag.mod1 }
  else if s.inst % 16 = 7 then { s with cycle := CycleTag.shl }
  else if s.inst % 16 = 8 then { s with cycle := CycleTag.shr }
  else if s.inst % 16 = 9 then
    match s.val_a, s.val_b with
    | some a, some b => fetch_done (store s a (load s a &&& load s b))
    | _, _ => fetch_done s
  else if s.inst % 16 = 10 then
    match s.val_a, s.val_b with
    | some a, some b => fetch_done (store s a (load s a ||| load s b))
    | _, _ => fetch_done s
  else if s.inst % 16 = 11 then
    match s.val_a, s.val_b with
    | some a, some b => fetch_done (store s a (load s a ^^^ load s b))
    | _, _ => fetch_done s
  else if s.inst % 16 = 12 then
    match s.val_a, s.val_b with
    | some a, some b =>
      { s with skip := decide (¬ load s a = load s b), cycle := CycleTag.ifpost }
    | _, _ => fetch_done s
  else if s.inst % 16 = 13 then
    match s.val_a, s.val_b with
    | some a, some b =>
      { s with skip := decide (load s a = load s b), cycle := CycleTag.ifpost }
    | _, _ => fetch_done s
  else if s.inst % 16 = 14 then
    match s.val_a, s.val_b with
    | some a, some b =>
      { s with skip := decide (¬ load s b < load s a), cycle := CycleTag.ifpost }
    | _, _ => fetch_done s
  else
    match s.val_a, s.val_b with
    | some a, some b =>
      { s with skip := decide (load s a &&& load s b = 0), cycle := CycleTag.ifpost }
    | _, _ => fetch_done s

/-- The second half of `cycle_fetch`'s basic-instruction path: resolve the
`b` operand (high 6 bits, source role) if it is still unresolved, ending the
cycle when resolution cost one, and otherwise fall into the execute
dispatch within the same cycle.  Mid-resolution suspensions return the
stored `cpu->cycle` thunk, so the `cycle` field is left unchanged. -/
def fetch_resolve_b (s : DCPU_State) : DCPU_State :=
  match s.val_b with
  | none =>
    let r := eval_value s ((s.inst >>> 10) % 64) false
    let s2 := { r.1 with val_b := some r.2.1 }
    if r.2.2 = 1 then { s2 with timer := s2.timer + 1 }
    else dispatch s2
  | some _ => dispatch s

/-- The operand-resolution and dispatch body of `cycle_fetch`, entered with
the instruction word already in the slot.  A non-basic instruction resolves
only its single operand (high 6 bits, source role); a basic one resolves
`a` (destination role) then `b`.  Each next-word resolution ends the cycle,
returning the stored `cpu->cycle` thunk (the `cycle` field is left
unchanged). -/
def fetch_decode (s1 : DCPU_State) : DCPU_State :=
  if s1.inst % 16 = 0 then
    match s1.val_a with
    | none =>
      let r := eval_value s1 ((s1.inst >>> 10) % 64) false
      let s2 := { r.1 with val_a := some r.2.1 }
      if r.2.2 = 1 then { s2 with timer := s2.timer + 1 }
      else dispatch s2
    | some _ => dispatch s1
  else
    match s1.val_a with
    | none =>
      let r := eval_value s1 ((s1.inst >>> 4) % 64) true
      let s2 := { r.1 with val_a := some r.2.1 }
      if r.2.2 = 1 then { s2 with timer := s2.timer + 1 }
      else fetch_resolve_b s2
    | some _ => fetch_resolve_b s1

/-- Embeds `cycle_fetch` from src/cade.c.  With no instruction in flight a pending
skip hands the whole cycle to `cycle_skip`; otherwise the next word is
fetched (the dead `if(cpu->skip) cpu->skip = 0` after the fetch nets to the
flag being false there, and is modelled by the explicit clear) and decoding
proceeds in the same cycle. -/
def cycle_fetch (s : DCPU_State) : DCPU_State :=
  if s.inst = 0 ∧ s.skip = true then
    { s with timer := s.timer + 1, cycle := CycleTag.skipc }
  else if s.inst = 0 then
    fetch_decode
      { s with inst := s.memory s.pc, pc := (s.pc + 1) % 0x10000, skip := false }
  else fetch_decode s

/-- One emulated clock cycle: run the thunk stored in `cpu->cycle`. -/
def step_one (s : DCPU_State) : DCPU_State :=
  match s.cycle with
  | CycleTag.fetch => cycle_fetch s
  | CycleTag.add => cycle_add s
  | CycleTag.sub => cycle_sub s
  | CycleTag.mul => cycle_mul s
  | CycleTag.div1 => cycle_div1 s
  | CycleTag.mod1 => cycle_mod1 s
  | CycleTag.divmod2 => cycle_divmod2 s
  | CycleTag.shl => cycle_shl s
  | CycleTag.shr => cycle_shr s
  | CycleTag.ifpost => cycle_if s
  | CycleTag.skipc => cycle_skip s
  | CycleTag.jsr => cycle_jsr s

/-- Embeds `DCPU_StepCycles` from src/cade.c: run exactly `n` clock cycles. -/
def DCPU_StepCycles (s : DCPU_State) (n : Nat) : DCPU_State :=
  match n with
  | 0 => s
  | n + 1 => DCPU_StepCycles (step_one s) n

/-- Embeds `DCPU_Init` from src/cade.c: zero everything, set SP to 0xffff, and make
`cycle_fetch` the next thunk.  The static literal table holds 0..31. -/
def DCPU_Init : DCPU_State :=
  { registers := fun _ => 0
    sp := 0xffff
    pc := 0
    o := 0
    memory := fun _ => 0
    cycle := CycleTag.fetch
    inst := 0
    val_a := none
    val_b := none
    dummy := 0
    timer := 0
    skip := false
    lits := fun i => i }

/-- Embeds `DCPU_Load` from src/cade.c: copy `data` into memory starting at
`address`. -/
def DCPU_Load (s : DCPU_State) (address : Nat) (data : List Nat) : DCPU_State :=
  { s with memory := fun j =>
      if address ≤ j ∧ j < address + data.length then data.getD (j - address) 0
      else s.memory j }

/-- Embeds `DCPU_GetRegister` from src/cade.c: the machine handle may be NULL
(modelled as `none`), and out-of-range register ids read as 0. -/
def DCPU_GetRegister (cpu : Option DCPU_State) (reg : Nat) : Nat :=
  match cpu with
  | some c => if reg < 8 then c.registers reg else 0
  | none => 0

/-- Embeds `DCPU_GetPC` from src/cade.c. -/
def DCPU_GetPC (cpu : Option DCPU_State) : Nat :=
  match cpu with
  | some c => c.pc
  | none => 0

/-- Embeds `DCPU_GetSP` from src/cade.c. -/
def DCPU_GetSP (cpu : Option DCPU_State) : Nat :=
  match cpu with
  | some c => c.sp
  | none => 0

/-- Embeds `DCPU_GetO` from src/cade.c. -/
def DCPU_GetO (cpu : Option DCPU_State) : Nat :=
  match cpu with
  | some c => c.o
  | none => 0

/-- Embeds `DCPU_GetMemory` from src/cade.c. -/
def DCPU_GetMemory (cpu : Option DCPU_State) (address : Nat) : Nat :=
  match cpu with
  | some c => c.memory address
  | none => 0

/-! ## Basic facts about loads, stores and state updates -/

theorem load_store_same (s : DCPU_State) (l : Loc) (v : Nat) :
    load (store s l v) l = v := by
  cases l <;> simp [load, store]

theorem store_o_eq (s : DCPU_State) (l : Loc) (v : Nat) :
    (store s l v).o = if l = Loc.o then v else s.o := by
  cases l <;> simp [store]

theorem store_inst (s : DCPU_State) (l : Loc) (v : Nat) :
    (store s l v).inst = s.inst := by
  cases l <;> rfl

theorem load_refetch (s : DCPU_State) (l : Loc) :
    load (get_cycle_refetch s) l = load s l := by
  cases l <;> rfl

theorem eval_value_inst (s : DCPU_State) (v : Nat) (d : Bool) :
    (eval_value s v d).1.inst = s.inst := by
  unfold eval_value
  by_cases h1 : v ≤ 7
  · rw [if_pos h1]
  rw [if_neg h1]
  by_cases h2 : v ≤ 15
  · rw [if_pos h2]
  rw [if_neg h2]
  by_cases h3 : v ≤ 23
  · rw [if_pos h3]
  rw [if_neg h3]
  by_cases h4 : v = 24
  · rw [if_pos h4]
  rw [if_neg h4]
  by_cases h5 : v = 25
  · rw [if_pos h5]
  rw [if_neg h5]
  by_cases h6 : v = 26
  · rw [if_pos h6]
  rw [if_neg h6]
  by_cases h7 : v = 27
  · rw [if_pos h7]
  rw [if_neg h7]
  by_cases h8 : v = 28
  · rw [if_pos h8]
  rw [if_neg h8]
  by_cases h9 : v = 29
  · rw [if_pos h9]
  rw [if_neg h9]
  by_cases h10 : v = 30
  · rw [if_pos h10]
  rw [if_neg h10]
  by_cases h11 : v = 31
  · rw [if_pos h11]
  rw [if_neg h11]
  by_cases h12 : v ≤ 63
  · rw [if_pos h12]
  rw [if_neg h12]

theorem eval_value_zero_free (s : DCPU_State) (d : Bool) :
    (eval_value s 0 d).2.2 = 0 := rfl

/-! ## Concrete machine configurations used by the claims -/

/-- Machine with register A holding 5 and memory word 5 holding 7, for
probing the register-indirect addressing mode. -/
def c1_state : DCPU_State :=
  { DCPU_Init with
    registers := fun i => if i = 0 then 5 else 0
    memory := fun a => if a = 5 then 7 else 0 }

/-- Fresh machine with `SET A, 0` (0x8001) loaded at 0 and the skip-pending
flag raised, as a conditional that just failed would leave it. -/
def c2_state : DCPU_State :=
  { DCPU_Load DCPU_Init 0 [0x8001] with skip := true }

/-- Fresh machine with the non-basic instruction 0x0020 (extended opcode 2,
which no operation defines; operand field names register A) loaded at 0. -/
def c4_state : DCPU_State := DCPU_Load DCPU_Init 0 [0x0020]

/-- Fresh machine with `SET <next-word literal 0x1234>, <small literal 1>`
(0x85f1 0x1234) loaded at 0: a store to a literal destination. -/
def c5_state : DCPU_State := DCPU_Load DCPU_Init 0 [0x85f1, 0x1234]

/-- Fresh machine with `MUL A, A` (0x0004) loaded at 0. -/
def c6_state : DCPU_State := DCPU_Load DCPU_Init 0 [0x0004]

/-- Machine with `DIV A, <small literal 0>` (0x8005) loaded at 0 and
register A holding 5. -/
def c7_state : DCPU_State :=
  { DCPU_Load DCPU_Init 0 [0x8005] with
    registers := fun i => if i = 0 then 5 else 0 }

/-- Fresh machine with `SET A, 0; SUB A, 1` (0x8001 0x8403) loaded at 0. -/
def c8a_state : DCPU_State := DCPU_Load DCPU_Init 0 [0x8001, 0x8403]

/-- Fresh machine with `SET A, 0xffff; ADD A, 1` (0x7c01 0xffff 0x8402)
loaded at 0. -/
def c8b_state : DCPU_State := DCPU_Load DCPU_Init 0 [0x7c01, 0xffff, 0x8402]

/-- Machine with resolved operand slots pointing at register A (holding 10)
and at the small-literal cell 3, as left by operand resolution of
`DIV A, 3`. -/
def c7w_state : DCPU_State :=
  { DCPU_Init with
    registers := fun i => if i = 0 then 10 else 0
    val_a := some (Loc.reg 0)
    val_b := some (Loc.lit 3) }

/-- Machine with resolved operand slots pointing at register A (holding 7)
and at the small-literal cell 1. -/
def c8w_state : DCPU_State :=
  { DCPU_Init with
    registers := fun i => if i = 0 then 7 else 0
    val_a := some (Loc.reg 0)
    val_b := some (Loc.lit 1) }

/-! ## Claim theorems -/

/-- C1: the claim states that operand codes 0x08..0x0f resolve to the
memory cell at the address held in the register (`memory[registers[r]]`, a
single indirection).  The code instead resolves to the cell addressed by
`memory[registers[r]]` (a double indirection): with A = 5 and memory[5] = 7
the resolved location is memory cell 7, not memory cell 5.  The
no-extra-cycle part of the claim does hold. -/
theorem C1_reg_indirect_double_indirection :
    c1_state.registers 0 = 5 ∧ c1_state.memory 5 = 7 ∧
    (eval_value c1_state 8 false).2.1 = Loc.mem 7 ∧
    Loc.mem 7 ≠ Loc.mem 5 ∧
    (eval_value c1_state 8 false).2.2 = 0 := by
  refine ⟨rfl, rfl, rfl, ?_, rfl⟩
  decide

/-- C3: the claim states that `instruction_length` counts one extra word
for every operand whose code lies in 0x10..0x17, 0x1e or 0x1f.  The code's
`DCPU_ValueLength` reports 0 for codes 0x10..0x17, so the two-word
instruction 0x0101 (`SET [next_word + A], A`, whose `a` operand code is
0x10) is reported as one word — even though `eval_value` consumes a next
word (advancing PC) and a cycle for exactly that code. -/
theorem C3_instruction_length_undercounts :
    DCPU_InstructionLength 0x0101 = 1 ∧
    DCPU_ValueLength 0x10 = 0 ∧
    (eval_value DCPU_Init 0x10 true).1.pc = DCPU_Init.pc + 1 ∧
    (eval_value DCPU_Init 0x10 true).2.2 = 1 := by
  exact ⟨by decide, by decide, rfl, rfl⟩

/-- C4: the claim states that a non-basic instruction with an undefined
extended opcode surfaces a fatal decode error and the machine does not
advance past the faulting cycle.  Running the code on 0x0020 (extended
opcode 2) shows the opposite: one cycle completes normally (PC advanced
past the word, instruction slot cleared, next action fetch, cycle counted)
and the following cycle fetches the next instruction. -/
theorem C4_unknown_extended_opcode_is_silent :
    (DCPU_StepCycles c4_state 1).pc = 1 ∧
    (DCPU_StepCycles c4_state 1).inst = 0 ∧
    (DCPU_StepCycles c4_state 1).cycle = CycleTag.fetch ∧
    (DCPU_StepCycles c4_state 1).timer = 1 ∧
    (DCPU_StepCycles c4_state 2).pc = 2 := by
  refine ⟨rfl, rfl, ?_, rfl, rfl⟩
  decide

/-- C5: the claim states that a next-word-literal destination resolves to
the scratch sink so the store is discarded and no memory cell changes.
Running `SET <next-word literal 0x1234>, 1` shows the code instead resolves
the destination to the program word holding the literal: memory word 1,
which held 0x1234, is overwritten with 1.  The final conjunct shows the
related read divergence: a small-literal destination resolves to the
scratch `dummy` cell, so a read of it yields the dummy contents, not the
literal value. -/
theorem C5_literal_destination_write_lands_in_memory :
    c5_state.memory 1 = 0x1234 ∧
    (eval_value { c5_state with pc := 1 } 0x1f true).2.1 = Loc.mem 1 ∧
    (DCPU_StepCycles c5_state 2).memory 1 = 1 ∧
    (eval_value DCPU_Init 0x22 true).2.1 = Loc.dummy := by
  exact ⟨by decide, rfl, by decide, rfl⟩

/-- C6: the claim states that `step_cycles(N)` increases the machine's
cycle counter by exactly N.  Stepping 2 cycles over `MUL A, A` completes
the two-cycle instruction (instruction slot cleared, next action fetch) but
raises the counter only by 1, because `cycle_mul` has no counter increment
of its own. -/
theorem C6_stepcycles_counter_deficit :
    (DCPU_StepCycles c6_state 2).timer = 1 ∧
    (DCPU_StepCycles c6_state 2).inst = 0 ∧
    (DCPU_StepCycles c6_state 2).cycle = CycleTag.fetch := by
  refine ⟨rfl, rfl, ?_⟩
  decide

/-- C2 (counterexample): the claim states that a pending skip clears the
flag, advances PC past the skipped instruction and costs exactly one extra
cycle.  On a fresh machine with `SET A, 0` at PC 0 and the skip flag
raised, after one cycle the flag is still set and PC has not moved: the
one-cycle form of the claim is false. -/
theorem C2_skip_is_not_one_cycle :
    ¬ ((DCPU_StepCycles c2_state 1).skip = false ∧
       (DCPU_StepCycles c2_state 1).pc =
         (c2_state.pc + DCPU_InstructionLength (c2_state.memory c2_state.pc))
           % 0x10000) := by
  intro h
  exact absurd h.1 (by decide)

/-- C10: every state-inspection operation called with a NULL machine handle
returns 0 instead of faulting, and `DCPU_GetRegister` also returns 0 for
any register id at or above 8 on a valid handle. -/
theorem C10_null_handle_and_bad_register_read_zero (cpu : Option DCPU_State)
    (r a : Nat) (h : 8 ≤ r) :
    DCPU_GetRegister none a = 0 ∧
    DCPU_GetPC none = 0 ∧
    DCPU_GetSP none = 0 ∧
    DCPU_GetO none = 0 ∧
    DCPU_GetMemory none a = 0 ∧
    DCPU_GetRegister cpu r = 0 := by
  refine ⟨rfl, rfl, rfl, rfl, rfl, ?_⟩
  cases cpu with
  | none => rfl
  | some c =>
    show (if r < 8 then c.registers r else 0) = 0
    rw [if_neg (by omega : ¬ r < 8)]

/-- C10 witness: the theorem applied at a concrete handle and register id. -/
theorem C10_witness :
    8 ≤ 9 ∧
    (DCPU_GetRegister none 0 = 0 ∧
     DCPU_GetPC none = 0 ∧
     DCPU_GetSP none = 0 ∧
     DCPU_GetO none = 0 ∧
     DCPU_GetMemory none 0 = 0 ∧
     DCPU_GetRegister (some DCPU_Init) 9 = 0) :=
  ⟨by decide, C10_null_handle_and_bad_register_read_zero (some DCPU_Init) 9 0 (by decide)⟩

/-! ## Further load/store facts used by the arithmetic claims -/

theorem load_timer_cycle (s : DCPU_State) (t : Nat) (c : CycleTag) (l : Loc) :
    load { s with timer := t, cycle := c } l = load s l := by
  cases l <;> rfl

theorem load_o_timer_cycle (s : DCPU_State) (x t : Nat) (c : CycleTag) (l : Loc)
    (h : l ≠ Loc.o) :
    load { s with o := x, timer := t, cycle := c } l = load s l := by
  cases l <;> first | rfl | exact absurd rfl h

theorem load_o_timer (s : DCPU_State) (x t : Nat) (l : Loc) (h : l ≠ Loc.o) :
    load { s with o := x, timer := t } l = load s l := by
  cases l <;> first | rfl | exact absurd rfl h

/-- C7: DIV semantics.  With a zero divisor the destination and O are both
cleared; otherwise the destination receives the 16-bit quotient and O
receives `((*a << 16) / *b) >> 16` computed from the pre-store dividend.
The destination is assumed distinct from the O register (when they alias,
the two assignments the claim prescribes would contradict each other; the
code lets the O assignment win).  The closing conjunct runs `DIV A, 0` on
a machine with A = 5 through the full engine: A and O end at 0. -/
theorem C7_div_semantics (s : DCPU_State) (a b : Loc)
    (ha : s.val_a = some a) (hb : s.val_b = some b) (hao : a ≠ Loc.o) :
    (load s b = 0 → load (cycle_div1 s) a = 0 ∧ (cycle_div1 s).o = 0) ∧
    (load s b ≠ 0 →
      load (cycle_div1 s) a = load s a / load s b ∧
      (cycle_div1 s).o = ((load s a <<< 16) / load s b) >>> 16) ∧
    (DCPU_StepCycles c7_state 3).registers 0 = 0 ∧
    (DCPU_StepCycles c7_state 3).o = 0 := by
  have hred : cycle_div1 s =
      if load s b ≠ 0 then
        { store s a (load s a / load s b) with
          o := ((load s a <<< 16) / load s b) >>> 16,
          timer := (store s a (load s a / load s b)).timer + 1,
          cycle := CycleTag.divmod2 }
      else
        { store { s with o := 0 } a 0 with
          timer := (store { s with o := 0 } a 0).timer + 1,
          cycle := CycleTag.divmod2 } := by
    unfold cycle_div1
    rw [ha, hb]
  refine ⟨?_, ?_, by decide, by decide⟩
  · intro h0
    rw [hred, if_neg (fun hn => hn h0)]
    constructor
    · rw [load_timer_cycle, load_store_same]
    · show (store { s with o := 0 } a 0).o = 0
      rw [store_o_eq]
      split <;> rfl
  · intro hne
    rw [hred, if_pos hne]
    constructor
    · rw [load_o_timer_cycle _ _ _ _ _ hao, load_store_same]
    · rfl

/-- C7 witness: the DIV semantics applied to resolved operands
`A` (holding 10) and the small-literal cell 3. -/
theorem C7_witness :
    c7w_state.val_a = some (Loc.reg 0) ∧
    c7w_state.val_b = some (Loc.lit 3) ∧
    Loc.reg 0 ≠ Loc.o ∧
    ((load c7w_state (Loc.lit 3) = 0 →
        load (cycle_div1 c7w_state) (Loc.reg 0) = 0 ∧ (cycle_div1 c7w_state).o = 0) ∧
     (load c7w_state (Loc.lit 3) ≠ 0 →
        load (cycle_div1 c7w_state) (Loc.reg 0) =
          load c7w_state (Loc.reg 0) / load c7w_state (Loc.lit 3) ∧
        (cycle_div1 c7w_state).o =
          ((load c7w_state (Loc.reg 0) <<< 16) / load c7w_state (Loc.lit 3)) >>> 16) ∧
     (DCPU_StepCycles c7_state 3).registers 0 = 0 ∧
     (DCPU_StepCycles c7_state 3).o = 0) :=
  ⟨rfl, rfl, by decide,
   C7_div_semantics c7w_state (Loc.reg 0) (Loc.lit 3) rfl rfl (by decide)⟩

/-- C8: ADD and SUB widen to 32 bits, truncate the stored result to
16 bits, and record the carry (1) resp. borrow (0xffff) in O.  The
destination is assumed distinct from O (when they alias, the O assignment
wins in the code) and the operand values are assumed to be machine words.
The closing conjuncts run `SET A, 0; SUB A, 1` and `SET A, 0xffff; ADD A, 1`
through the full engine. -/
theorem C8_add_sub_wrap_and_overflow (s : DCPU_State) (a b : Loc)
    (ha : s.val_a = some a) (hb : s.val_b = some b) (hao : a ≠ Loc.o)
    (hva : load s a < 0x10000) (hvb : load s b < 0x10000) :
    load (cycle_add s) a = (load s a + load s b) % 0x10000 ∧
    (cycle_add s).o = (if 0xffff < load s a + load s b then 1 else 0) ∧
    load (cycle_sub s) a = (0x10000 + load s a - load s b) % 0x10000 ∧
    (cycle_sub s).o = (if load s a < load s b then 0xffff else 0) ∧
    ((DCPU_StepCycles c8a_state 3).registers 0 = 0xffff ∧
     (DCPU_StepCycles c8a_state 3).o = 0xffff) ∧
    ((DCPU_StepCycles c8b_state 4).registers 0 = 0 ∧
     (DCPU_StepCycles c8b_state 4).o = 1) := by
  have hadd : cycle_add s = get_cycle_refetch
      { store s a ((load s a + load s b) % 0x10000) with
        o := if 0xffff < load s a + load s b then 1 else 0,
        timer := (store s a ((load s a + load s b) % 0x10000)).timer + 1 } := by
    unfold cycle_add
    rw [ha, hb]
  have hsub : cycle_sub s = get_cycle_refetch
      { store s a (((load s a + 0x100000000 - load s b) % 0x100000000) % 0x10000) with
        o := if 0xffff < (load s a + 0x100000000 - load s b) % 0x100000000
             then 0xffff else 0,
        timer := (store s a (((load s a + 0x100000000 - load s b) % 0x100000000)
                    % 0x10000)).timer + 1 } := by
    unfold cycle_sub
    rw [ha, hb]
  refine ⟨?_, ?_, ?_, ?_, ⟨by decide, by decide⟩, ⟨by decide, by decide⟩⟩
  · rw [hadd, load_refetch, load_o_timer _ _ _ _ hao, load_store_same]
  · rw [hadd]
    rfl
  · rw [hsub, load_refetch, load_o_timer _ _ _ _ hao, load_store_same]
    omega
  · rw [hsub]
    show (if 0xffff < (load s a + 0x100000000 - load s b) % 0x100000000
          then 0xffff else 0) = _
    rcases Nat.lt_or_ge (load s a) (load s b) with h | h
    · rw [if_pos (by omega), if_pos h]
    · rw [if_neg (by omega), if_neg (by omega)]

/-- C8 witness: the ADD/SUB semantics applied to resolved operands
`A` (holding 7) and the small-literal cell 1. -/
theorem C8_witness :
    c8w_state.val_a = some (Loc.reg 0) ∧
    c8w_state.val_b = some (Loc.lit 1) ∧
    Loc.reg 0 ≠ Loc.o ∧
    load c8w_state (Loc.reg 0) < 0x10000 ∧
    load c8w_state (Loc.lit 1) < 0x10000 ∧
    (load (cycle_add c8w_state) (Loc.reg 0) =
       (load c8w_state (Loc.reg 0) + load c8w_state (Loc.lit 1)) % 0x10000 ∧
     (cycle_add c8w_state).o =
       (if 0xffff < load c8w_state (Loc.reg 0) + load c8w_state (Loc.lit 1)
        then 1 else 0) ∧
     load (cycle_sub c8w_state) (Loc.reg 0) =
       (0x10000 + load c8w_state (Loc.reg 0) - load c8w_state (Loc.lit 1)) % 0x10000 ∧
     (cycle_sub c8w_state).o =
       (if load c8w_state (Loc.reg 0) < load c8w_state (Loc.lit 1)
        then 0xffff else 0) ∧
     ((DCPU_StepCycles c8a_state 3).registers 0 = 0xffff ∧
      (DCPU_StepCycles c8a_state 3).o = 0xffff) ∧
     ((DCPU_StepCycles c8b_state 4).registers 0 = 0 ∧
      (DCPU_StepCycles c8b_state 4).o = 1)) :=
  ⟨rfl, rfl, by decide, by decide, by decide,
   C8_add_sub_wrap_and_overflow c8w_state (Loc.reg 0) (Loc.lit 1) rfl rfl
     (by decide) (by decide) (by decide)⟩

/-- C2 (amended): with the continuation idle and the skip flag pending, the
skip applies exactly once but costs exactly two cycles, not one: the first
cycle only observes the flag (flag and PC unchanged after it), the second
advances PC by the length `instruction_length` computes for the word at PC,
clears the flag and returns the machine to the idle fetch state.  Nothing
executes: registers, memory, SP and O are untouched and the operand slots
end unresolved, so no operand-resolution cycles are paid. -/
theorem C2_skip_applies_once_costing_two_cycles (s : DCPU_State)
    (h1 : s.inst = 0) (h2 : s.skip = true) (h3 : s.cycle = CycleTag.fetch) :
    (DCPU_StepCycles s 1).skip = true ∧
    (DCPU_StepCycles s 1).pc = s.pc ∧
    (DCPU_StepCycles s 2).pc =
      (s.pc + DCPU_InstructionLength (s.memory s.pc)) % 0x10000 ∧
    (DCPU_StepCycles s 2).skip = false ∧
    (DCPU_StepCycles s 2).inst = 0 ∧
    (DCPU_StepCycles s 2).val_a = none ∧
    (DCPU_StepCycles s 2).val_b = none ∧
    (DCPU_StepCycles s 2).cycle = CycleTag.fetch ∧
    (DCPU_StepCycles s 2).timer = s.timer + 2 ∧
    (DCPU_StepCycles s 2).registers = s.registers ∧
    (DCPU_StepCycles s 2).memory = s.memory ∧
    (DCPU_StepCycles s 2).sp = s.sp ∧
    (DCPU_StepCycles s 2).o = s.o := by
  have e1 : DCPU_StepCycles s 1 = step_one s := rfl
  have e2 : DCPU_StepCycles s 2 = step_one (step_one s) := rfl
  have estep : step_one s = cycle_fetch s := by
    unfold step_one
    rw [h3]
  have efetch : cycle_fetch s =
      { s with timer := s.timer + 1, cycle := CycleTag.skipc } := by
    unfold cycle_fetch
    rw [if_pos ⟨h1, h2⟩]
  have e3 : step_one { s with timer := s.timer + 1, cycle := CycleTag.skipc } =
      { s with pc := (s.pc + DCPU_InstructionLength (s.memory s.pc)) % 0x10000,
               skip := false, inst := 0, val_a := none, val_b := none,
               timer := s.timer + 2, cycle := CycleTag.fetch } := rfl
  rw [e1, e2, estep, efetch, e3]
  exact ⟨h2, rfl, rfl, rfl, rfl, rfl, rfl, rfl, rfl, rfl, rfl, rfl, rfl⟩

/-- C2 witness: the two-cycle skip behaviour at the concrete machine of the
counterexample (skip pending over `SET A, 0`). -/
theorem C2_witness :
    c2_state.inst = 0 ∧ c2_state.skip = true ∧ c2_state.cycle = CycleTag.fetch ∧
    ((DCPU_StepCycles c2_state 1).skip = true ∧
     (DCPU_StepCycles c2_state 1).pc = c2_state.pc ∧
     (DCPU_StepCycles c2_state 2).pc =
       (c2_state.pc + DCPU_InstructionLength (c2_state.memory c2_state.pc))
         % 0x10000 ∧
     (DCPU_StepCycles c2_state 2).skip = false ∧
     (DCPU_StepCycles c2_state 2).inst = 0 ∧
     (DCPU_StepCycles c2_state 2).val_a = none ∧
     (DCPU_StepCycles c2_state 2).val_b = none ∧
     (DCPU_StepCycles c2_state 2).cycle = CycleTag.fetch ∧
     (DCPU_StepCycles c2_state 2).timer = c2_state.timer + 2 ∧
     (DCPU_StepCycles c2_state 2).registers = c2_state.registers ∧
     (DCPU_StepCycles c2_state 2).memory = c2_state.memory ∧
     (DCPU_StepCycles c2_state 2).sp = c2_state.sp ∧
     (DCPU_StepCycles c2_state 2).o = c2_state.o) :=
  ⟨rfl, rfl, rfl,
   C2_skip_applies_once_costing_two_cycles c2_state rfl rfl rfl⟩

/-! ## The idle invariant (C9) -/

/-- The continuation invariant of the spec: when the instruction slot holds
the sentinel 0 (continuation idle), both operand slots are unresolved. -/
def idle_inv (s : DCPU_State) : Prop :=
  s.inst = 0 → s.val_a = none ∧ s.val_b = none

theorem idle_inv_of_inst_eq (t s : DCPU_State) (hinst : t.inst = s.inst)
    (hne : s.inst ≠ 0) : idle_inv t :=
  fun hi => absurd (hinst ▸ hi) hne

theorem inst_ne_zero_of_val_a_some (s : DCPU_State) (h : idle_inv s) (a : Loc)
    (hva : s.val_a = some a) : s.inst ≠ 0 := by
  intro hi
  have h2 := (h hi).1
  rw [hva] at h2
  exact Option.noConfusion h2

theorem inst_ne_zero_of_val_b_some (s : DCPU_State) (h : idle_inv s) (b : Loc)
    (hvb : s.val_b = some b) : s.inst ≠ 0 := by
  intro hi
  have h2 := (h hi).2
  rw [hvb] at h2
  exact Option.noConfusion h2

theorem idle_inv_dispatch (s : DCPU_State) : idle_inv (dispatch s) := by
  unfold dispatch
  by_cases h0 : s.inst % 16 = 0
  · rw [if_pos h0]
    by_cases hx : (s.inst >>> 4) % 64 = 1
    · rw [if_pos hx]
      intro hi
      rw [hi] at hx
      exact absurd hx (by decide)
    · rw [if_neg hx]
      exact fun hh => ⟨rfl, rfl⟩
  rw [if_neg h0]
  have hne : s.inst ≠ 0 := fun hi => h0 (by rw [hi])
  by_cases h1 : s.inst % 16 = 1
  · rw [if_pos h1]
    rcases s.val_a with _ | a <;> rcases s.val_b with _ | b <;>
      exact fun hh => ⟨rfl, rfl⟩
  rw [if_neg h1]
  by_cases h2 : s.inst % 16 = 2
  · rw [if_pos h2]
    exact idle_inv_of_inst_eq _ s rfl hne
  rw [if_neg h2]
  by_cases h3 : s.inst % 16 = 3
  · rw [if_pos h3]
    exact idle_inv_of_inst_eq _ s rfl hne
  rw [if_neg h3]
  by_cases h4 : s.inst % 16 = 4
  · rw [if_pos h4]
    exact idle_inv_of_inst_eq _ s rfl hne
  rw [if_neg h4]
  by_cases h5 : s.inst % 16 = 5
  · rw [if_pos h5]
    exact idle_inv_of_inst_eq _ s rfl hne
  rw [if_neg h5]
  by_cases h6 : s.inst % 16 = 6
  · rw [if_pos h6]
    exact idle_inv_of_inst_eq _ s rfl hne
  rw [if_neg h6]
  by_cases h7 : s.inst % 16 = 7
  · rw [if_pos h7]
    exact idle_inv_of_inst_eq _ s rfl hne
  rw [if_neg h7]
  by_cases h8 : s.inst % 16 = 8
  · rw [if_pos h8]
    exact idle_inv_of_inst_eq _ s rfl hne
  rw [if_neg h8]
  by_cases h9 : s.inst % 16 = 9
  · rw [if_pos h9]
    rcases s.val_a with _ | a <;> rcases s.val_b with _ | b <;>
      exact fun hh => ⟨rfl, rfl⟩
  rw [if_neg h9]
  by_cases h10 : s.inst % 16 = 10
  · rw [if_pos h10]
    rcases s.val_a with _ | a <;> rcases s.val_b with _ | b <;>
      exact fun hh => ⟨rfl, rfl⟩
  rw [if_neg h10]
  by_cases h11 : s.inst % 16 = 11
  · rw [if_pos h11]
    rcases s.val_a with _ | a <;> rcases s.val_b with _ | b <;>
      exact fun hh => ⟨rfl, rfl⟩
  rw [if_neg h11]
  by_cases h12 : s.inst % 16 = 12
  · rw [if_pos h12]
    rcases s.val_a with _ | a <;> rcases s.val_b with _ | b <;>
      first
      | exact fun hh => ⟨rfl, rfl⟩
      | exact idle_inv_of_inst_eq _ s rfl hne
  rw [if_neg h12]
  by_cases h13 : s.inst % 16 = 13
  · rw [if_pos h13]
    rcases s.val_a with _ | a <;> rcases s.val_b with _ | b <;>
      first
      | exact fun hh => ⟨rfl, rfl⟩
      | exact idle_inv_of_inst_eq _ s rfl hne
  rw [if_neg h13]
  by_cases h14 : s.inst % 16 = 14
  · rw [if_pos h14]
    rcases s.val_a with _ | a <;> rcases s.val_b with _ | b <;>
      first
      | exact fun hh => ⟨rfl, rfl⟩
      | exact idle_inv_of_inst_eq _ s rfl hne
  rw [if_neg h14]
  rcases s.val_a with _ | a <;> rcases s.val_b with _ | b <;>
    first
    | exact fun hh => ⟨rfl, rfl⟩
    | exact idle_inv_of_inst_eq _ s rfl hne

theorem idle_inv_resolve_b (s : DCPU_State) (hne : s.inst ≠ 0) :
    idle_inv (fetch_resolve_b s) := by
  unfold fetch_resolve_b
  rcases s.val_b with _ | b
  · dsimp only
    split
    · exact idle_inv_of_inst_eq _ s (eval_value_inst s ((s.inst >>> 10) % 64) false) hne
    · exact idle_inv_dispatch _
  · exact idle_inv_dispatch _

theorem idle_inv_fetch_decode (t : DCPU_State) : idle_inv (fetch_decode t) := by
  unfold fetch_decode
  by_cases h0 : t.inst % 16 = 0
  · rw [if_pos h0]
    rcases t.val_a with _ | a
    · dsimp only
      split
      · next hc =>
        intro hi
        have hi2 : t.inst = 0 := by
          rw [← eval_value_inst t ((t.inst >>> 10) % 64) false]
          exact hi
        rw [hi2] at hc
        have hz : ((0 : Nat) >>> 10) % 64 = 0 := rfl
        rw [hz] at hc
        rw [eval_value_zero_free] at hc
        exact absurd hc (by decide)
      · exact idle_inv_dispatch _
    · exact idle_inv_dispatch _
  · rw [if_neg h0]
    have hne : t.inst ≠ 0 := fun hi => h0 (by rw [hi])
    rcases t.val_a with _ | a
    · dsimp only
      split
      · exact idle_inv_of_inst_eq _ t (eval_value_inst t ((t.inst >>> 4) % 64) true) hne
      · apply idle_inv_resolve_b
        intro hi
        apply hne
        rw [← eval_value_inst t ((t.inst >>> 4) % 64) true]
        exact hi
    · exact idle_inv_resolve_b t hne

theorem idle_inv_cycle_fetch (s : DCPU_State) (h : idle_inv s) :
    idle_inv (cycle_fetch s) := by
  unfold cycle_fetch
  by_cases hs : s.inst = 0 ∧ s.skip = true
  · rw [if_pos hs]
    intro hi
    exact h hs.1
  · rw [if_neg hs]
    split
    · exact idle_inv_fetch_decode _
    · exact idle_inv_fetch_decode _

theorem idle_inv_refetch (s : DCPU_State) : idle_inv (get_cycle_refetch s) :=
  fun _ => ⟨rfl, rfl⟩

theorem idle_inv_cycle_add (s : DCPU_State) : idle_inv (cycle_add s) := by
  unfold cycle_add
  rcases s.val_a with _ | a <;> rcases s.val_b with _ | b <;>
    exact fun hh => ⟨rfl, rfl⟩

theorem idle_inv_cycle_sub (s : DCPU_State) : idle_inv (cycle_sub s) := by
  unfold cycle_sub
  rcases s.val_a with _ | a <;> rcases s.val_b with _ | b <;>
    exact fun hh => ⟨rfl, rfl⟩

theorem idle_inv_cycle_mul (s : DCPU_State) : idle_inv (cycle_mul s) := by
  unfold cycle_mul
  rcases s.val_a with _ | a <;> rcases s.val_b with _ | b <;>
    exact fun hh => ⟨rfl, rfl⟩

theorem idle_inv_cycle_shl (s : DCPU_State) : idle_inv (cycle_shl s) := by
  unfold cycle_shl
  rcases s.val_a with _ | a <;> rcases s.val_b with _ | b <;>
    exact fun hh => ⟨rfl, rfl⟩

theorem idle_inv_cycle_shr (s : DCPU_State) : idle_inv (cycle_shr s) := by
  unfold cycle_shr
  rcases s.val_a with _ | a <;> rcases s.val_b with _ | b <;>
    exact fun hh => ⟨rfl, rfl⟩

theorem idle_inv_cycle_div1 (s : DCPU_State) (h : idle_inv s) :
    idle_inv (cycle_div1 s) := by
  unfold cycle_div1
  rcases hva : s.val_a with _ | a
  · rcases hvb : s.val_b with _ | b
    · exact fun hh => ⟨rfl, rfl⟩
    · have hne := inst_ne_zero_of_val_b_some s h b hvb
      exact idle_inv_of_inst_eq _ s rfl hne
  · rcases hvb : s.val_b with _ | b
    · have hne := inst_ne_zero_of_val_a_some s h a hva
      exact idle_inv_of_inst_eq _ s rfl hne
    · have hne := inst_ne_zero_of_val_a_some s h a hva
      dsimp only
      split
      · exact idle_inv_of_inst_eq _ s (store_inst s a (load s a / load s b)) hne
      · exact idle_inv_of_inst_eq _ s (store_inst _ a 0) hne

theorem idle_inv_cycle_mod1 (s : DCPU_State) (h : idle_inv s) :
    idle_inv (cycle_mod1 s) := by
  unfold cycle_mod1
  rcases hva : s.val_a with _ | a
  · rcases hvb : s.val_b with _ | b
    · exact fun hh => ⟨rfl, rfl⟩
    · have hne := inst_ne_zero_of_val_b_some s h b hvb
      exact idle_inv_of_inst_eq _ s rfl hne
  · rcases hvb : s.val_b with _ | b
    · have hne := inst_ne_zero_of_val_a_some s h a hva
      exact idle_inv_of_inst_eq _ s rfl hne
    · have hne := inst_ne_zero_of_val_a_some s h a hva
      dsimp only
      intro hi
      exfalso
      apply hne
      revert hi
      split <;>
        (intro hi
         rw [← store_inst s a _]
         exact hi)

theorem idle_inv_step_one (s : DCPU_State) (h : idle_inv s) :
    idle_inv (step_one s) := by
  unfold step_one
  rcases s.cycle
  case fetch => exact idle_inv_cycle_fetch s h
  case add => exact idle_inv_cycle_add s
  case sub => exact idle_inv_cycle_sub s
  case mul => exact idle_inv_cycle_mul s
  case div1 => exact idle_inv_cycle_div1 s h
  case mod1 => exact idle_inv_cycle_mod1 s h
  case divmod2 => exact fun hh => ⟨rfl, rfl⟩
  case shl => exact idle_inv_cycle_shl s
  case shr => exact idle_inv_cycle_shr s
  case ifpost => exact fun hh => ⟨rfl, rfl⟩
  case skipc => exact fun hh => ⟨rfl, rfl⟩
  case jsr => exact fun hh => ⟨rfl, rfl⟩

/-- C9: reset establishes the initial state the spec describes (all
registers, PC and O zero, SP = 0xffff, memory and cycle counter zero, skip
flag clear, continuation idle with next action fetch), the idle invariant
holds after reset, and every executed cycle preserves it: whenever the
instruction slot holds the sentinel at a cycle boundary, both operand slots
are unresolved. -/
theorem C9_reset_and_idle_invariant (s : DCPU_State) (h : idle_inv s) :
    (∀ i, DCPU_Init.registers i = 0) ∧
    DCPU_Init.pc = 0 ∧
    DCPU_Init.o = 0 ∧
    DCPU_Init.sp = 0xffff ∧
    (∀ a, DCPU_Init.memory a = 0) ∧
    DCPU_Init.timer = 0 ∧
    DCPU_Init.skip = false ∧
    DCPU_Init.inst = 0 ∧
    DCPU_Init.cycle = CycleTag.fetch ∧
    DCPU_Init.val_a = none ∧
    DCPU_Init.val_b = none ∧
    idle_inv DCPU_Init ∧
    idle_inv (step_one s) :=
  ⟨fun _ => rfl, rfl, rfl, rfl, fun _ => rfl, rfl, rfl, rfl, rfl, rfl, rfl,
   fun _ => ⟨rfl, rfl⟩, idle_inv_step_one s h⟩

/-- C9 witness: the invariant is preserved across the cycle that fetches
and executes from the freshly reset machine. -/
theorem C9_witness :
    idle_inv DCPU_Init ∧
    ((∀ i, DCPU_Init.registers i = 0) ∧
     DCPU_Init.pc = 0 ∧
     DCPU_Init.o = 0 ∧
     DCPU_Init.sp = 0xffff ∧
     (∀ a, DCPU_Init.memory a = 0) ∧
     DCPU_Init.timer = 0 ∧
     DCPU_Init.skip = false ∧
     DCPU_Init.inst = 0 ∧
     DCPU_Init.cycle = CycleTag.fetch ∧
     DCPU_Init.val_a = none ∧
     DCPU_Init.val_b = none ∧
     idle_inv DCPU_Init ∧
     idle_inv (step_one DCPU_Init)) :=
  ⟨fun _ => ⟨rfl, rfl⟩,
   C9_reset_and_idle_invariant DCPU_Init (fun _ => ⟨rfl, rfl⟩)⟩

end Cade
